import Mathlib

/-
Verification of the "risp" expression-language core of the rustyreef
repository (src/risp/{val,env,eval,error,result}.rs) against its
natural-language specification.

Shallow-embedding conventions, chosen once and used throughout:

* `i64` is modelled as `Int`, with the machine boundary made explicit in
  the arithmetic: a division or remainder with a zero divisor always
  panics in Rust, and a result outside the i64 range overflows (a panic
  in debug builds, two's-complement wrap in release builds) — both are
  left undefined by the model (`none`), so no theorem asserts an outcome
  the program does not produce.
* `f64` is modelled as `Rat` (exact rationals).  The claims under
  consideration concern type promotion, commutativity and the shape of the
  pairwise partial order — properties IEEE doubles share with the exact
  rationals on the inputs involved.  A float division or remainder with a
  zero divisor yields IEEE ±inf/NaN, which the rational model cannot
  represent: it is left undefined (`none`); rounding is likewise not
  modelled, and no claim depends on either.
* `chrono::NaiveTime` is modelled as `Nat` (seconds of day),
  `NaiveDate` as `Int` (days), `NaiveDateTime` as `Int` (a timestamp).
  Only their order is ever consulted, through `PartialOrd for Val`,
  which in the source does not order them at all.
* The wall clock read by `builtin_now` is modelled as a read-only `clock`
  field carried next to the environment's name-to-value map; `Env::put`
  and `Env::get` touch only the map, as in the source.
* Rust panics (`unreachable!()`, out-of-bounds `Vec` indexing as in
  `val_pop`/`val_peek`, and `usize` underflow of `forms_len - 1` followed
  by the out-of-bounds access) are modelled as `Option.none`: the
  evaluation returns neither a value nor a `RispError`.
* The evaluator is total via a `fuel` argument; every call between the
  mutually recursive functions spends one unit.  `none` from fuel
  exhaustion is indistinguishable from a panic, so concrete evaluations
  are run with generous fuel and universally quantified statements are
  phrased to hold for every fuel.
* `Val::Fun` in the source carries a name and a function pointer, with
  `PartialEq` comparing names only; here it carries the name and a tag
  into the builtin dispatch table (`BuiltinF`), exactly the builtins the
  environment installs.
-/

/-- Mirrors `RispError` from src/risp/error.rs. -/
inductive RispError where
  | ArgumentMismatch : RispError
  | NoChildren : RispError
  | NotANumber : RispError
  | NumArguments : Nat → Nat → RispError
  | ParseError : String → RispError
  | UnknownFunction : String → RispError
  | WrongType : String → String → RispError
deriving DecidableEq

/-- Tags for the builtin function pointers installed by `Env::new`
(src/risp/eval.rs `builtin_*`).  `ValFun::Builtin(name, fp)` is modelled
as the name together with one of these tags. -/
inductive BuiltinF where
  | add | sub | mul | div | rem
  | min | max | gt | lt | ge | le | eq | ne
  | «if» | now | and | or | not
deriving DecidableEq

/-- Mirrors `Val` from src/risp/val.rs (see the header for how the
payload types of `Float`, `Time`, `Date`, `DateTime` are modelled). -/
inductive Val where
  | Bool : Bool → Val
  | Float : Rat → Val
  | Fun : String → BuiltinF → Val
  | List : List Val → Val
  | Num : Int → Val
  | Risp : List Val → Val
  | Sym : String → Val
  | Time : Nat → Val
  | Date : Int → Val
  | DateTime : Int → Val

/-- Mirrors `Val::as_num` (src/risp/val.rs): only `Num` is accepted. -/
def Val.as_num : Val → Except RispError Int
  | .Num n => .ok n
  | _ => .error .NotANumber

/-- Abbreviated stand-in for Rust's `format!("{:?}", v)` on a `Val`.
It is used only inside `WrongType` payloads produced on paths that are
unreachable from `eval` (every builtin receives a `List`, and `call` is
only ever invoked on a `Fun`); no claim inspects these strings. -/
def val_debug : Val → String
  | .Bool b => "Bool(" ++ toString b ++ ")"
  | .Float q => "Float(" ++ toString q ++ ")"
  | .Fun n _ => "Fun(Builtin(" ++ n ++ "))"
  | .List _ => "List(..)"
  | .Num n => "Num(" ++ toString n ++ ")"
  | .Risp _ => "Risp(..)"
  | .Sym s => "Sym(" ++ s ++ ")"
  | .Time t => "Time(" ++ toString t ++ ")"
  | .Date d => "Date(" ++ toString d ++ ")"
  | .DateTime d => "DateTime(" ++ toString d ++ ")"

/-- Rust's `format!("{:?}", "")`: the Debug rendering of the empty
string, used in `builtin_if`'s `WrongType` payloads. -/
def quoted_empty : String := "\"\""

/-- Total comparison on `Int`, the shape of Rust's `i64::cmp`. -/
def int_cmp (a b : Int) : Ordering :=
  if a < b then .lt else if a = b then .eq else .gt

/-- Comparison on the `Rat` model of `f64`; `f64::partial_cmp` is total
away from NaN, which the `Rat` model does not contain. -/
def rat_cmp (a b : Rat) : Ordering :=
  if a < b then .lt else if a = b then .eq else .gt

/-- Mirrors `impl PartialOrd for Val` (src/risp/val.rs lines 107-123):
only `Float`/`Num` combinations are ordered; every other pair —
including same-variant `Time`/`Date`/`DateTime` pairs — yields `none`. -/
def pcmp : Val → Val → Option Ordering
  | .Float s, .Num o => some (rat_cmp s (o : Rat))
  | .Float s, .Float o => some (rat_cmp s o)
  | .Float _, _ => none
  | .Num s, .Num o => some (int_cmp s o)
  | .Num s, .Float o => some (rat_cmp (s : Rat) o)
  | .Num _, _ => none
  | _, _ => none

/-- The five arithmetic operators the `apply_binop!` macro is
instantiated with. -/
inductive ArithOp where
  | add | sub | mul | div | rem
deriving DecidableEq

/-- Guard for the `i64` range of the source's `Num` payload: a result
outside it overflows in Rust (panic in debug builds, wrap in release
builds) and is undefined in the model. -/
def i64_checked (n : Int) : Option Int :=
  if -9223372036854775808 ≤ n ∧ n ≤ 9223372036854775807 then some n else none

/-- The operator's action on two `i64` operands.  Rust `/` and `%` on
`i64` truncate toward zero (`Int.tdiv`/`Int.tmod`) and always panic on
a zero divisor; `i64::MIN / -1` panics as overflow (its true quotient
`2^63` fails the range check) and `i64::MIN % -1` likewise panics in
debug builds, so both are `none`. -/
def ArithOp.onInt : ArithOp → Int → Int → Option Int
  | .add, a, b => i64_checked (a + b)
  | .sub, a, b => i64_checked (a - b)
  | .mul, a, b => i64_checked (a * b)
  | .div, a, b => if b = 0 then none else i64_checked (Int.tdiv a b)
  | .rem, a, b =>
    if b = 0 ∨ (a = -9223372036854775808 ∧ b = -1) then none
    else i64_checked (Int.tmod a b)

/-- Truncation toward zero on the `Rat` model of `f64`. -/
def rat_trunc (q : Rat) : Int := Int.tdiv q.num (q.den : Int)

/-- The operator's action after promotion to the float domain; `%` on
`f64` is the truncated remainder.  A zero divisor yields IEEE ±inf/NaN,
which the rational model cannot represent: `none`. -/
def ArithOp.onRat : ArithOp → Rat → Rat → Option Rat
  | .add, a, b => some (a + b)
  | .sub, a, b => some (a - b)
  | .mul, a, b => some (a * b)
  | .div, a, b => if b = 0 then none else some (a / b)
  | .rem, a, b => if b = 0 then none else some (a - b * (rat_trunc (a / b) : Rat))

/-- Mirrors the `apply_binop!` macro (src/risp/eval.rs lines 44-66):
`Num op Num` stays `Num`; any pair involving a `Float` promotes both
operands and yields `Float`; anything else is `NotANumber`.  `none`
(panic or unrepresentable IEEE value, see `ArithOp.onInt`/`onRat`)
propagates. -/
def apply_binop (op : ArithOp) (x y : Val) : Option (Except RispError Val) :=
  match x, y with
  | .Num a, .Num b =>
    match op.onInt a b with
    | none => none
    | some n => some (.ok (.Num n))
  | .Num a, .Float b =>
    match op.onRat (a : Rat) b with
    | none => none
    | some q => some (.ok (.Float q))
  | .Float a, .Num b =>
    match op.onRat a (b : Rat) with
    | none => none
    | some q => some (.ok (.Float q))
  | .Float a, .Float b =>
    match op.onRat a b with
    | none => none
    | some q => some (.ok (.Float q))
  | _, _ => some (.error .NotANumber)

/-- The post-loop check of `builtin_iter_op`: the relational operators
return `Bool(true)` once the loop is exhausted. -/
def rel_op (func : String) : Bool :=
  func = "gt" || func = "lt" || func = "ge" || func = "le" || func = "eq"

/-- The `while child_count > 1` loop of `builtin_iter_op`
(src/risp/eval.rs lines 85-224), with the accumulator `x` explicit and
the already-popped tail of the argument list as the remaining input.
Note the `"lt"` arm: on `Ordering::Less` the source keeps `x` (`x = x;`)
where `"gt"`/`"ge"`/`"le"`/`"eq"` move to `y`, and the `"min"`/`"max"`
arms return `Ok(val_bool(false))` on `Ordering::Equal` (their `_` arm).
The `unreachable!()` on an unknown operator name is `none`. -/
def iter_loop (func : String) : Val → List Val → Option (Except RispError Val)
  | x, [] => some (.ok (if rel_op func then .Bool true else x))
  | x, y :: rest =>
    match func with
    | "add" =>
      match apply_binop .add x y with
      | none => none
      | some (.error er) => some (.error er)
      | some (.ok x') => iter_loop func x' rest
    | "sub" =>
      match apply_binop .sub x y with
      | none => none
      | some (.error er) => some (.error er)
      | some (.ok x') => iter_loop func x' rest
    | "mul" =>
      match apply_binop .mul x y with
      | none => none
      | some (.error er) => some (.error er)
      | some (.ok x') => iter_loop func x' rest
    | "div" =>
      match apply_binop .div x y with
      | none => none
      | some (.error er) => some (.error er)
      | some (.ok x') => iter_loop func x' rest
    | "rem" =>
      match apply_binop .rem x y with
      | none => none
      | some (.error er) => some (.error er)
      | some (.ok x') => iter_loop func x' rest
    | "min" =>
      match pcmp x y with
      | some .lt => iter_loop func x rest
      | some .gt => iter_loop func y rest
      | some _ => some (.ok (.Bool false))
      | none => some (.error .ArgumentMismatch)
    | "max" =>
      match pcmp x y with
      | some .lt => iter_loop func y rest
      | some .gt => iter_loop func x rest
      | some _ => some (.ok (.Bool false))
      | none => some (.error .ArgumentMismatch)
    | "gt" =>
      match pcmp x y with
      | some .gt => iter_loop func y rest
      | some _ => some (.ok (.Bool false))
      | none => some (.error .ArgumentMismatch)
    | "lt" =>
      match pcmp x y with
      | some .lt => iter_loop func x rest
      | some _ => some (.ok (.Bool false))
      | none => some (.error .ArgumentMismatch)
    | "ge" =>
      match pcmp x y with
      | some .gt => iter_loop func y rest
      | some .eq => iter_loop func y rest
      | some _ => some (.ok (.Bool false))
      | none => some (.error .ArgumentMismatch)
    | "le" =>
      match pcmp x y with
      | some .lt => iter_loop func y rest
      | some .eq => iter_loop func y rest
      | some _ => some (.ok (.Bool false))
      | none => some (.error .ArgumentMismatch)
    | "eq" =>
      match pcmp x y with
      | some .eq => iter_loop func y rest
      | some _ => some (.ok (.Bool false))
      | none => some (.error .ArgumentMismatch)
    | _ => none

/-- Mirrors `builtin_iter_op` (src/risp/eval.rs lines 69-224).  A
non-`List` argument value is returned as-is; `val_pop` on an empty
`List` is an out-of-bounds panic (`none`); a single argument under
`"sub"` is unary negation through `as_num` (negating `i64::MIN`
overflows: `none`). -/
def builtin_iter_op (v : Val) (func : String) : Option (Except RispError Val) :=
  match v with
  | .List [] => none
  | .List (x :: rest) =>
    match rest with
    | [] =>
      if func = "sub" then
        match x.as_num with
        | .error er => some (.error er)
        | .ok n =>
          match i64_checked (-n) with
          | none => none
          | some m => some (.ok (.Num m))
      else iter_loop func x []
    | _ => iter_loop func x rest
  | other => some (.ok other)

/-- The `while child_count > 1` loop of `builtin_ne` (src/risp/eval.rs
lines 327-336); the `HashSet<i64>` of already-seen values is modelled as
a list.  Each popped argument is passed through `as_num` *before* the
membership test, and a duplicate returns `Bool(false)` immediately. -/
def ne_loop (seen : List Int) : List Val → Option (Except RispError Val)
  | [] => some (.ok (.Bool true))
  | y :: rest =>
    match y.as_num with
    | .error er => some (.error er)
    | .ok n => if n ∈ seen then some (.ok (.Bool false)) else ne_loop (n :: seen) rest

/-- Mirrors `builtin_ne` (src/risp/eval.rs lines 318-338). -/
def builtin_ne (a : Val) : Option (Except RispError Val) :=
  match a with
  | .List [] => none
  | .List (x :: rest) =>
    match x.as_num with
    | .error er => some (.error er)
    | .ok n => ne_loop [n] rest
  | other => some (.ok other)

/-- Mirrors `Env` (src/risp/env.rs): a flat name-to-value map.  The
`clock` field is the modelled wall clock read by `builtin_now` (the
source reads `Local::now()`); it is never written. -/
structure Env where
  data : String → Option Val
  clock : Int

/-- Mirrors `Env::put` (src/risp/env.rs lines 66-72).  The source
inserts when absent and overwrites when the new value differs; when it
is equal the entry already holds `val`, so the net effect is always that
`name` maps to `val` afterwards. -/
def Env.put (e : Env) (name : String) (v : Val) : Env :=
  { e with data := fun k => if k = name then some v else e.data k }

/-- Mirrors `Env::get` (src/risp/env.rs lines 74-82). -/
def Env.get (e : Env) (k : String) : Except RispError Val :=
  match e.data k with
  | some v => .ok v
  | none => .error (.UnknownFunction k)

/-- The bindings `Env::new` installs, in order: the builtins with their
aliases (each `Fun` carries the name it was bound under, as
`add_builtin` passes `name` into `val_builtin`), then the constants. -/
def installed_pairs : List (String × Val) :=
  [ ("add", .Fun "add" .add), ("+", .Fun "+" .add)
  , ("sub", .Fun "sub" .sub), ("-", .Fun "-" .sub)
  , ("mul", .Fun "mul" .mul), ("*", .Fun "*" .mul)
  , ("div", .Fun "div" .div), ("/", .Fun "/" .div)
  , ("rem", .Fun "rem" .rem), ("%", .Fun "%" .rem)
  , ("min", .Fun "min" .min), ("max", .Fun "max" .max)
  , ("gt", .Fun "gt" .gt), (">", .Fun ">" .gt)
  , ("lt", .Fun "lt" .lt), ("<", .Fun "<" .lt)
  , ("ge", .Fun "ge" .ge), (">=", .Fun ">=" .ge)
  , ("le", .Fun "le" .le), ("<=", .Fun "<=" .le)
  , ("eq", .Fun "eq" .eq), ("==", .Fun "==" .eq)
  , ("ne", .Fun "ne" .ne), ("!=", .Fun "!=" .ne)
  , ("if", .Fun "if" .«if»), ("now", .Fun "now" .now)
  , ("and", .Fun "and" .and), ("or", .Fun "or" .or)
  , ("not", .Fun "not" .not)
  , ("true", .Bool true), ("false", .Bool false), ("nil", .Bool false)
  ]

/-- The names `Env::new` installs. -/
def installed_names : List String := installed_pairs.map Prod.fst

/-- A sequence of `put` calls, left to right. -/
def Env.put_all (e : Env) (ps : List (String × Val)) : Env :=
  ps.foldl (fun a p => a.put p.1 p.2) e

/-- Mirrors `Env::new` (src/risp/env.rs lines 16-56): starts from the
caller-supplied map (`Env::new(None)` starts empty) and installs the
builtins and constants by successive `put`s. -/
def Env.new (init : String → Option Val) (clock : Int) : Env :=
  Env.put_all { data := init, clock := clock } installed_pairs

/-- `Env::new(None)`: the environment every test in the source starts
from. -/
def default_env (clock : Int) : Env := Env.new (fun _ => none) clock

/-- Modelled from the spec: `val_peek` is called by `eval`
(src/risp/eval.rs line 256) but is not among the sources; by §4.3 the
evaluator "inspects the first evaluated element" without removing it, so
`val_peek` is `val_pop` (src/risp/val.rs lines 180-190) minus the
removal: child `i` of a `List`/`Risp` (out of bounds is an indexing
panic, `none`), `NoChildren` on an atom. -/
def val_peek (v : Val) (i : Nat) : Option (Except RispError Val) :=
  match v with
  | .List children =>
    match children[i]? with
    | some c => some (.ok c)
    | none => none
  | .Risp children =>
    match children[i]? with
    | some c => some (.ok c)
    | none => none
  | _ => some (.error .NoChildren)

/-- Result of one evaluator step: `none` is a panic or fuel exhaustion;
otherwise the `RispResult` together with the environment as left behind
by the `&mut Env` parameter. -/
abbrev EvalRes := Option (Except RispError Val × Env)

/-- Attaches the (untouched) environment to the result of a builtin that
never uses its `&mut Env` parameter. -/
def lift_res (e : Env) : Option (Except RispError Val) → EvalRes
  | none => none
  | some r => some (r, e)

/-- Mirrors `builtin_add` .. `builtin_eq` (src/risp/eval.rs lines
270-316): thin wrappers over `builtin_iter_op` ignoring the
environment. -/
def builtin_add (e : Env) (a : Val) : EvalRes := lift_res e (builtin_iter_op a "add")

def builtin_sub (e : Env) (a : Val) : EvalRes := lift_res e (builtin_iter_op a "sub")

def builtin_mul (e : Env) (a : Val) : EvalRes := lift_res e (builtin_iter_op a "mul")

def builtin_div (e : Env) (a : Val) : EvalRes := lift_res e (builtin_iter_op a "div")

def builtin_rem (e : Env) (a : Val) : EvalRes := lift_res e (builtin_iter_op a "rem")

def builtin_min (e : Env) (a : Val) : EvalRes := lift_res e (builtin_iter_op a "min")

def builtin_max (e : Env) (a : Val) : EvalRes := lift_res e (builtin_iter_op a "max")

def builtin_gt (e : Env) (a : Val) : EvalRes := lift_res e (builtin_iter_op a "gt")

def builtin_lt (e : Env) (a : Val) : EvalRes := lift_res e (builtin_iter_op a "lt")

def builtin_ge (e : Env) (a : Val) : EvalRes := lift_res e (builtin_iter_op a "ge")

def builtin_le (e : Env) (a : Val) : EvalRes := lift_res e (builtin_iter_op a "le")

def builtin_eq (e : Env) (a : Val) : EvalRes := lift_res e (builtin_iter_op a "eq")

/-- `builtin_ne` with the environment attached, matching its Rust
signature. -/
def builtin_ne_env (e : Env) (a : Val) : EvalRes := lift_res e (builtin_ne a)

/-- Mirrors `builtin_now` (src/risp/eval.rs lines 374-387), with the
wall clock taken from the modelled `clock` field. -/
def builtin_now (e : Env) (a : Val) : EvalRes :=
  match a with
  | .List [] => some (.ok (.DateTime e.clock), e)
  | .List cells => some (.error (.NumArguments 0 cells.length), e)
  | v => some (.error (.WrongType "list" (val_debug v)), e)

mutual

/-- Mirrors `eval` (src/risp/eval.rs lines 226-268).  `Risp`: evaluate
all forms, then pop index `forms_len - 1` (for the empty program the
`usize` subtraction underflows and the `Vec` access is out of bounds: a
panic, `none`).  `Sym`: environment lookup.  `List`: evaluate all
children; an empty list is returned as-is; otherwise dispatch on the
first *evaluated* element — a `Fun` is popped and called on the rest,
anything else re-evaluates the first *original* child.  Atoms
self-evaluate. -/
def eval : Nat → Env → Val → EvalRes
  | 0, _, _ => none
  | fuel + 1, e, .Risp forms =>
    match eval_cells fuel e forms with
    | none => none
    | some (.error er, e₁) => some (.error er, e₁)
    | some (.ok vs, e₁) =>
      match vs[vs.length - 1]? with
      | none => none
      | some r => some (.ok r, e₁)
  | _ + 1, e, .Sym s =>
    match e.get s with
    | .error er => some (.error er, e)
    | .ok r => some (.ok r, e)
  | fuel + 1, e, .List cells =>
    match eval_cells fuel e cells with
    | none => none
    | some (.error er, e₁) => some (.error er, e₁)
    | some (.ok args, e₁) =>
      match cells with
      | [] => some (.ok (.List []), e₁)
      | c :: _ =>
        match val_peek (.List args) 0 with
        | none => none
        | some (.error er) => some (.error er, e₁)
        | some (.ok (.Fun name f)) => call fuel e₁ (.Fun name f) (.List args.tail)
        | some (.ok _) => eval fuel e₁ c
  | _ + 1, e, v => some (.ok v, e)

/-- Mirrors `eval_cells` (src/risp/eval.rs lines 16-27).  The source is
a `fold` whose accumulator is a `Result`; an `Err` produced on any cell
other than the last makes the *next* closure call hit `unreachable!()`
(a panic, `none`) — only an error on the final cell is actually returned
to the caller. -/
def eval_cells : Nat → Env → List Val → Option (Except RispError (List Val) × Env)
  | 0, _, _ => none
  | _ + 1, e, [] => some (.ok [], e)
  | fuel + 1, e, c :: rest =>
    match eval fuel e c with
    | none => none
    | some (.error er, e₁) =>
      match rest with
      | [] => some (.error er, e₁)
      | _ => none
    | some (.ok x, e₁) =>
      match eval_cells fuel e₁ rest with
      | none => none
      | some (.error er, e₂) => some (.error er, e₂)
      | some (.ok xs, e₂) => some (.ok (x :: xs), e₂)

/-- Mirrors `call` (src/risp/eval.rs lines 29-41): a `Fun` dispatches
through its stored pointer (here: the `BuiltinF` tag); anything else is
a `WrongType` (unreachable from `eval`, which calls `call` only on a
`Fun`). -/
def call : Nat → Env → Val → Val → EvalRes
  | 0, _, _, _ => none
  | fuel + 1, e, .Fun _name f, args => apply_builtin fuel f e args
  | _ + 1, e, f, _ => some (.error (.WrongType "Function" (val_debug f)), e)

/-- The static dispatch table: which `builtin_*` each installed function
pointer is. -/
def apply_builtin : Nat → BuiltinF → Env → Val → EvalRes
  | 0, _, _, _ => none
  | _ + 1, .add, e, a => builtin_add e a
  | _ + 1, .sub, e, a => builtin_sub e a
  | _ + 1, .mul, e, a => builtin_mul e a
  | _ + 1, .div, e, a => builtin_div e a
  | _ + 1, .rem, e, a => builtin_rem e a
  | _ + 1, .min, e, a => builtin_min e a
  | _ + 1, .max, e, a => builtin_max e a
  | _ + 1, .gt, e, a => builtin_gt e a
  | _ + 1, .lt, e, a => builtin_lt e a
  | _ + 1, .ge, e, a => builtin_ge e a
  | _ + 1, .le, e, a => builtin_le e a
  | _ + 1, .eq, e, a => builtin_eq e a
  | _ + 1, .ne, e, a => builtin_ne_env e a
  | fuel + 1, .«if», e, a => builtin_if fuel e a
  | _ + 1, .now, e, a => builtin_now e a
  | fuel + 1, .and, e, a => builtin_and fuel e a
  | fuel + 1, .or, e, a => builtin_or fuel e a
  | fuel + 1, .not, e, a => builtin_not fuel e a

/-- Mirrors `builtin_if` (src/risp/eval.rs lines 340-372).  Exactly
three arguments; the first (already evaluated by `eval`) must be a
`Bool` — a `List` first argument is run through `eval_cells`, whose
result is itself always a `List`, so that path always ends in
`WrongType("bool", "\"\"")`.  Then exactly one of the two branch
arguments is popped and evaluated. -/
def builtin_if : Nat → Env → Val → EvalRes
  | 0, _, _ => none
  | fuel + 1, e, .List [c0, c1, c2] =>
    match c0 with
    | .Bool b => if b then eval fuel e c1 else eval fuel e c2
    | .List inner =>
      match eval_cells fuel e inner with
      | none => none
      | some (.error er, e₁) => some (.error er, e₁)
      | some (.ok _, e₁) => some (.error (.WrongType "bool" quoted_empty), e₁)
    | _ => some (.error (.WrongType "bool" quoted_empty), e)
  | _ + 1, e, .List cells => some (.error (.NumArguments 3 cells.length), e)
  | _ + 1, e, v => some (.error (.WrongType "list" (val_debug v)), e)

/-- Mirrors `builtin_and` (src/risp/eval.rs lines 389-416): at least two
arguments, then the loop `and_loop`. -/
def builtin_and : Nat → Env → Val → EvalRes
  | 0, _, _ => none
  | fuel + 1, e, .List cells =>
    if cells.length < 2 then some (.error (.NumArguments 2 cells.length), e)
    else and_loop fuel e cells
  | _ + 1, e, v => some (.error (.WrongType "list" (val_debug v)), e)

/-- The `while arg_count > 1` loop of `builtin_and` plus the final-
argument evaluation: each non-final argument is evaluated eagerly; an
evaluated `Bool(false)` short-circuits, every other value counts as
truthy; the last argument's value is the overall result. -/
def and_loop : Nat → Env → List Val → EvalRes
  | 0, _, _ => none
  | _ + 1, _, [] => none
  | fuel + 1, e, [last] => eval fuel e last
  | fuel + 1, e, c :: rest =>
    match eval fuel e c with
    | none => none
    | some (.error er, e₁) => some (.error er, e₁)
    | some (.ok (.Bool false), e₁) => some (.ok (.Bool false), e₁)
    | some (.ok _, e₁) => and_loop fuel e₁ rest

/-- Mirrors `builtin_or` (src/risp/eval.rs lines 418-454). -/
def builtin_or : Nat → Env → Val → EvalRes
  | 0, _, _ => none
  | fuel + 1, e, .List cells =>
    if cells.length < 2 then some (.error (.NumArguments 2 cells.length), e)
    else or_loop fuel e false cells
  | _ + 1, e, v => some (.error (.WrongType "list" (val_debug v)), e)

/-- The loop of `builtin_or`: every non-final argument is evaluated (no
evaluation short-circuit; only the `one_true` flag accumulates); the
final argument is evaluated only when some earlier one was truthy,
otherwise the result is `Bool(false)`. -/
def or_loop : Nat → Env → Bool → List Val → EvalRes
  | 0, _, _, _ => none
  | _ + 1, _, _, [] => none
  | fuel + 1, e, one_true, [last] =>
    if one_true then eval fuel e last else some (.ok (.Bool false), e)
  | fuel + 1, e, one_true, c :: rest =>
    match eval fuel e c with
    | none => none
    | some (.error er, e₁) => some (.error er, e₁)
    | some (.ok (.Bool b), e₁) => or_loop fuel e₁ (one_true || b) rest
    | some (.ok _, e₁) => or_loop fuel e₁ true rest

/-- Mirrors `builtin_not` (src/risp/eval.rs lines 456-475): exactly one
argument, evaluated; a `Bool` is negated, anything else becomes
`Bool(false)`. -/
def builtin_not : Nat → Env → Val → EvalRes
  | 0, _, _ => none
  | fuel + 1, e, .List [c] =>
    match eval fuel e c with
    | none => none
    | some (.error er, e₁) => some (.error er, e₁)
    | some (.ok (.Bool b), e₁) => some (.ok (.Bool (!b)), e₁)
    | some (.ok _, e₁) => some (.ok (.Bool false), e₁)
  | _ + 1, e, .List cells => some (.error (.NumArguments 1 cells.length), e)
  | _ + 1, e, v => some (.error (.WrongType "list" (val_debug v)), e)

end

/-- Environment preservation: every `some` outcome carries back exactly
the environment it was given. -/
def env_pres {α : Type} (e : Env) (r : Option (α × Env)) : Prop :=
  ∀ x e', r = some (x, e') → e' = e

/-- Environment of the source test `compare_two_times`: `Env::new(None)`
with `t1 = Time(09:00:00)` and `t2 = Time(10:00:00)` bound by `put`. -/
def env_time_pair : Env := ((default_env 0).put "t1" (.Time 32400)).put "t2" (.Time 36000)

/-- Environment of the source test `add_float_and_num`: `Env::new(None)`
with `a = Num(3)` and `b = Float(0.1415)` bound by `put`. -/
def env_promote : Env := ((default_env 0).put "a" (.Num 3)).put "b" (.Float 0.1415)

lemma some_pair_eq {α β : Type} {a x : α} {b y : β} (h : some (a, b) = some (x, y)) :
    a = x ∧ b = y := by
  simp only [Option.some.injEq, Prod.mk.injEq] at h
  exact h

lemma pres_lift (e : Env) (r : Option (Except RispError Val)) : env_pres e (lift_res e r) := by
  intro x e' h
  cases r with
  | none => simp [lift_res] at h
  | some v => exact (some_pair_eq h).2.symm

lemma pres_now (e : Env) (a : Val) : env_pres e (builtin_now e a) := by
  intro x e' h
  cases a with
  | List cells =>
    cases cells with
    | nil => exact (some_pair_eq h).2.symm
    | cons c cs => exact (some_pair_eq h).2.symm
  | Bool b => exact (some_pair_eq h).2.symm
  | Float q => exact (some_pair_eq h).2.symm
  | Fun n f => exact (some_pair_eq h).2.symm
  | Num n => exact (some_pair_eq h).2.symm
  | Risp cs => exact (some_pair_eq h).2.symm
  | Sym s => exact (some_pair_eq h).2.symm
  | Time t => exact (some_pair_eq h).2.symm
  | Date d => exact (some_pair_eq h).2.symm
  | DateTime d => exact (some_pair_eq h).2.symm

/-- Simultaneous statement over the mutually recursive evaluator
functions: none of them ever hands back a changed environment — the
source never calls `Env::put` during evaluation. -/
theorem env_unchanged_all : ∀ fuel : Nat,
    (∀ e v, env_pres e (eval fuel e v)) ∧
    (∀ e cs, env_pres e (eval_cells fuel e cs)) ∧
    (∀ e f a, env_pres e (call fuel e f a)) ∧
    (∀ f e a, env_pres e (apply_builtin fuel f e a)) ∧
    (∀ e a, env_pres e (builtin_if fuel e a)) ∧
    (∀ e a, env_pres e (builtin_and fuel e a)) ∧
    (∀ e cs, env_pres e (and_loop fuel e cs)) ∧
    (∀ e a, env_pres e (builtin_or fuel e a)) ∧
    (∀ e b cs, env_pres e (or_loop fuel e b cs)) ∧
    (∀ e a, env_pres e (builtin_not fuel e a)) := by
  intro fuel
  induction fuel with
  | zero =>
    refine ⟨?_, ?_, ?_, ?_, ?_, ?_, ?_, ?_, ?_, ?_⟩ <;> intros <;>
      simp_all [env_pres, eval, eval_cells, call, apply_builtin, builtin_if,
        builtin_and, and_loop, builtin_or, or_loop, builtin_not]
  | succ n ih =>
    obtain ⟨ihe, ihc, ihcall, ihapp, ihif, ihand, ihandl, ihor, ihorl, ihnot⟩ := ih
    have heval : ∀ e v, env_pres e (eval (n+1) e v) := by
      intro e v x e' h
      cases v with
      | Risp forms =>
        simp only [eval] at h
        cases hc : eval_cells n e forms with
        | none => simp only [hc] at h; exact absurd h (by simp)
        | some p =>
          obtain ⟨r, e₁⟩ := p
          simp only [hc] at h
          have he₁ : e₁ = e := ihc e forms r e₁ hc
          cases r with
          | error er => exact (some_pair_eq h).2.symm.trans he₁
          | ok vs =>
            cases hv : vs[vs.length - 1]? with
            | none => simp only [hv] at h; exact absurd h (by simp)
            | some r => simp only [hv] at h; exact (some_pair_eq h).2.symm.trans he₁
      | Sym s =>
        simp only [eval] at h
        cases hg : e.get s with
        | error er => simp only [hg] at h; exact (some_pair_eq h).2.symm
        | ok r => simp only [hg] at h; exact (some_pair_eq h).2.symm
      | List cells =>
        simp only [eval] at h
        cases hc : eval_cells n e cells with
        | none => simp only [hc] at h; exact absurd h (by simp)
        | some p =>
          obtain ⟨r, e₁⟩ := p
          simp only [hc] at h
          have he₁ : e₁ = e := ihc e cells r e₁ hc
          cases r with
          | error er => exact (some_pair_eq h).2.symm.trans he₁
          | ok args =>
            cases cells with
            | nil => exact (some_pair_eq h).2.symm.trans he₁
            | cons c cs =>
              cases hp : val_peek (.List args) 0 with
              | none => simp only [hp] at h; exact absurd h (by simp)
              | some pk =>
                simp only [hp] at h
                cases pk with
                | error er => exact (some_pair_eq h).2.symm.trans he₁
                | ok a =>
                  cases a with
                  | Fun name f =>
                    exact (ihcall e₁ (.Fun name f) (.List args.tail) x e' h).trans he₁
                  | Bool b => exact (ihe e₁ c x e' h).trans he₁
                  | Float q => exact (ihe e₁ c x e' h).trans he₁
                  | List l => exact (ihe e₁ c x e' h).trans he₁
                  | Num m => exact (ihe e₁ c x e' h).trans he₁
                  | Risp l => exact (ihe e₁ c x e' h).trans he₁
                  | Sym s => exact (ihe e₁ c x e' h).trans he₁
                  | Time t => exact (ihe e₁ c x e' h).trans he₁
                  | Date d => exact (ihe e₁ c x e' h).trans he₁
                  | DateTime d => exact (ihe e₁ c x e' h).trans he₁
      | Bool b => exact (some_pair_eq h).2.symm
      | Float q => exact (some_pair_eq h).2.symm
      | Fun name f => exact (some_pair_eq h).2.symm
      | Num m => exact (some_pair_eq h).2.symm
      | Time t => exact (some_pair_eq h).2.symm
      | Date d => exact (some_pair_eq h).2.symm
      | DateTime d => exact (some_pair_eq h).2.symm
    have hcells : ∀ e cs, env_pres e (eval_cells (n+1) e cs) := by
      intro e cs x e' h
      cases cs with
      | nil => exact (some_pair_eq h).2.symm
      | cons c rest =>
        simp only [eval_cells] at h
        cases h1 : eval n e c with
        | none => simp only [h1] at h; exact absurd h (by simp)
        | some p =>
          obtain ⟨r, e₁⟩ := p
          simp only [h1] at h
          have he₁ : e₁ = e := ihe e c r e₁ h1
          cases r with
          | error er =>
            cases rest with
            | nil => exact (some_pair_eq h).2.symm.trans he₁
            | cons r2 rs => simp at h
          | ok v =>
            cases h2 : eval_cells n e₁ rest with
            | none => simp only [h2] at h; exact absurd h (by simp)
            | some q =>
              obtain ⟨r2, e₂⟩ := q
              simp only [h2] at h
              have he₂ : e₂ = e₁ := ihc e₁ rest r2 e₂ h2
              cases r2 with
              | error er => exact ((some_pair_eq h).2.symm.trans he₂).trans he₁
              | ok vs => exact ((some_pair_eq h).2.symm.trans he₂).trans he₁
    have hcall : ∀ e f a, env_pres e (call (n+1) e f a) := by
      intro e f a x e' h
      cases f with
      | Fun name g => exact ihapp g e a x e' h
      | Bool b => exact (some_pair_eq h).2.symm
      | Float q => exact (some_pair_eq h).2.symm
      | List l => exact (some_pair_eq h).2.symm
      | Num m => exact (some_pair_eq h).2.symm
      | Risp l => exact (some_pair_eq h).2.symm
      | Sym s => exact (some_pair_eq h).2.symm
      | Time t => exact (some_pair_eq h).2.symm
      | Date d => exact (some_pair_eq h).2.symm
      | DateTime d => exact (some_pair_eq h).2.symm
    have hif : ∀ e a, env_pres e (builtin_if (n+1) e a) := by
      intro e a x e' h
      cases a with
      | List cells =>
        match cells with
        | [c0, c1, c2] =>
          simp only [builtin_if] at h
          cases c0 with
          | Bool b =>
            cases b with
            | true => exact ihe e c1 x e' h
            | false => exact ihe e c2 x e' h
          | List inner =>
            cases hc : eval_cells n e inner with
            | none => simp only [hc] at h; exact absurd h (by simp)
            | some p =>
              obtain ⟨r, e₁⟩ := p
              simp only [hc] at h
              have he₁ : e₁ = e := ihc e inner r e₁ hc
              cases r with
              | error er => exact (some_pair_eq h).2.symm.trans he₁
              | ok vs => exact (some_pair_eq h).2.symm.trans he₁
          | Float q => exact (some_pair_eq h).2.symm
          | Fun name f => exact (some_pair_eq h).2.symm
          | Num m => exact (some_pair_eq h).2.symm
          | Risp l => exact (some_pair_eq h).2.symm
          | Sym s => exact (some_pair_eq h).2.symm
          | Time t => exact (some_pair_eq h).2.symm
          | Date d => exact (some_pair_eq h).2.symm
          | DateTime d => exact (some_pair_eq h).2.symm
        | [] => exact (some_pair_eq h).2.symm
        | [c0] => exact (some_pair_eq h).2.symm
        | [c0, c1] => exact (some_pair_eq h).2.symm
        | c0 :: c1 :: c2 :: c3 :: rest => exact (some_pair_eq h).2.symm
      | Bool b => exact (some_pair_eq h).2.symm
      | Float q => exact (some_pair_eq h).2.symm
      | Fun name f => exact (some_pair_eq h).2.symm
      | Num m => exact (some_pair_eq h).2.symm
      | Risp l => exact (some_pair_eq h).2.symm
      | Sym s => exact (some_pair_eq h).2.symm
      | Time t => exact (some_pair_eq h).2.symm
      | Date d => exact (some_pair_eq h).2.symm
      | DateTime d => exact (some_pair_eq h).2.symm
    have handl : ∀ e cs, env_pres e (and_loop (n+1) e cs) := by
      intro e cs x e' h
      match cs with
      | [] => simp [and_loop] at h
      | [last] => exact ihe e last x e' h
      | c :: c2 :: rest =>
        simp only [and_loop] at h
        cases h1 : eval n e c with
        | none => simp only [h1] at h; exact absurd h (by simp)
        | some p =>
          obtain ⟨r, e₁⟩ := p
          simp only [h1] at h
          have he₁ : e₁ = e := ihe e c r e₁ h1
          cases r with
          | error er => exact (some_pair_eq h).2.symm.trans he₁
          | ok v =>
            cases v with
            | Bool b =>
              cases b with
              | false => exact (some_pair_eq h).2.symm.trans he₁
              | true => exact (ihandl e₁ (c2 :: rest) x e' h).trans he₁
            | Float q => exact (ihandl e₁ (c2 :: rest) x e' h).trans he₁
            | Fun name f => exact (ihandl e₁ (c2 :: rest) x e' h).trans he₁
            | List l => exact (ihandl e₁ (c2 :: rest) x e' h).trans he₁
            | Num m => exact (ihandl e₁ (c2 :: rest) x e' h).trans he₁
            | Risp l => exact (ihandl e₁ (c2 :: rest) x e' h).trans he₁
            | Sym s => exact (ihandl e₁ (c2 :: rest) x e' h).trans he₁
            | Time t => exact (ihandl e₁ (c2 :: rest) x e' h).trans he₁
            | Date d => exact (ihandl e₁ (c2 :: rest) x e' h).trans he₁
            | DateTime d => exact (ihandl e₁ (c2 :: rest) x e' h).trans he₁
    have hand : ∀ e a, env_pres e (builtin_and (n+1) e a) := by
      intro e a x e' h
      cases a with
      | List cells =>
        simp only [builtin_and] at h
        by_cases hlen : cells.length < 2
        · rw [if_pos hlen] at h
          exact (some_pair_eq h).2.symm
        · rw [if_neg hlen] at h
          exact ihandl e cells x e' h
      | Bool b => exact (some_pair_eq h).2.symm
      | Float q => exact (some_pair_eq h).2.symm
      | Fun name f => exact (some_pair_eq h).2.symm
      | Num m => exact (some_pair_eq h).2.symm
      | Risp l => exact (some_pair_eq h).2.symm
      | Sym s => exact (some_pair_eq h).2.symm
      | Time t => exact (some_pair_eq h).2.symm
      | Date d => exact (some_pair_eq h).2.symm
      | DateTime d => exact (some_pair_eq h).2.symm
    have horl : ∀ e b cs, env_pres e (or_loop (n+1) e b cs) := by
      intro e b cs x e' h
      match cs with
      | [] => simp [or_loop] at h
      | [last] =>
        simp only [or_loop] at h
        cases b with
        | true => exact ihe e last x e' h
        | false => exact (some_pair_eq h).2.symm
      | c :: c2 :: rest =>
        simp only [or_loop] at h
        cases h1 : eval n e c with
        | none => simp only [h1] at h; exact absurd h (by simp)
        | some p =>
          obtain ⟨r, e₁⟩ := p
          simp only [h1] at h
          have he₁ : e₁ = e := ihe e c r e₁ h1
          cases r with
          | error er => exact (some_pair_eq h).2.symm.trans he₁
          | ok v =>
            cases v with
            | Bool b2 => exact (ihorl e₁ (b || b2) (c2 :: rest) x e' h).trans he₁
            | Float q => exact (ihorl e₁ true (c2 :: rest) x e' h).trans he₁
            | Fun name f => exact (ihorl e₁ true (c2 :: rest) x e' h).trans he₁
            | List l => exact (ihorl e₁ true (c2 :: rest) x e' h).trans he₁
            | Num m => exact (ihorl e₁ true (c2 :: rest) x e' h).trans he₁
            | Risp l => exact (ihorl e₁ true (c2 :: rest) x e' h).trans he₁
            | Sym s => exact (ihorl e₁ true (c2 :: rest) x e' h).trans he₁
            | Time t => exact (ihorl e₁ true (c2 :: rest) x e' h).trans he₁
            | Date d => exact (ihorl e₁ true (c2 :: rest) x e' h).trans he₁
            | DateTime d => exact (ihorl e₁ true (c2 :: rest) x e' h).trans he₁
    have hor : ∀ e a, env_pres e (builtin_or (n+1) e a) := by
      intro e a x e' h
      cases a with
      | List cells =>
        simp only [builtin_or] at h
        by_cases hlen : cells.length < 2
        · rw [if_pos hlen] at h
          exact (some_pair_eq h).2.symm
        · rw [if_neg hlen] at h
          exact ihorl e false cells x e' h
      | Bool b => exact (some_pair_eq h).2.symm
      | Float q => exact (some_pair_eq h).2.symm
      | Fun name f => exact (some_pair_eq h).2.symm
      | Num m => exact (some_pair_eq h).2.symm
      | Risp l => exact (some_pair_eq h).2.symm
      | Sym s => exact (some_pair_eq h).2.symm
      | Time t => exact (some_pair_eq h).2.symm
      | Date d => exact (some_pair_eq h).2.symm
      | DateTime d => exact (some_pair_eq h).2.symm
    have hnot : ∀ e a, env_pres e (builtin_not (n+1) e a) := by
      intro e a x e' h
      cases a with
      | List cells =>
        match cells with
        | [c] =>
          simp only [builtin_not] at h
          cases h1 : eval n e c with
          | none => simp only [h1] at h; exact absurd h (by simp)
          | some p =>
            obtain ⟨r, e₁⟩ := p
            simp only [h1] at h
            have he₁ : e₁ = e := ihe e c r e₁ h1
            cases r with
            | error er => exact (some_pair_eq h).2.symm.trans he₁
            | ok v =>
              cases v with
              | Bool b => exact (some_pair_eq h).2.symm.trans he₁
              | Float q => exact (some_pair_eq h).2.symm.trans he₁
              | Fun name f => exact (some_pair_eq h).2.symm.trans he₁
              | List l => exact (some_pair_eq h).2.symm.trans he₁
              | Num m => exact (some_pair_eq h).2.symm.trans he₁
              | Risp l => exact (some_pair_eq h).2.symm.trans he₁
              | Sym s => exact (some_pair_eq h).2.symm.trans he₁
              | Time t => exact (some_pair_eq h).2.symm.trans he₁
              | Date d => exact (some_pair_eq h).2.symm.trans he₁
              | DateTime d => exact (some_pair_eq h).2.symm.trans he₁
        | [] => exact (some_pair_eq h).2.symm
        | c :: c2 :: rest => exact (some_pair_eq h).2.symm
      | Bool b => exact (some_pair_eq h).2.symm
      | Float q => exact (some_pair_eq h).2.symm
      | Fun name f => exact (some_pair_eq h).2.symm
      | Num m => exact (some_pair_eq h).2.symm
      | Risp l => exact (some_pair_eq h).2.symm
      | Sym s => exact (some_pair_eq h).2.symm
      | Time t => exact (some_pair_eq h).2.symm
      | Date d => exact (some_pair_eq h).2.symm
      | DateTime d => exact (some_pair_eq h).2.symm
    have happ : ∀ f e a, env_pres e (apply_builtin (n+1) f e a) := by
      intro f e a x e' h
      cases f with
      | add => exact pres_lift e _ x e' h
      | sub => exact pres_lift e _ x e' h
      | mul => exact pres_lift e _ x e' h
      | div => exact pres_lift e _ x e' h
      | rem => exact pres_lift e _ x e' h
      | min => exact pres_lift e _ x e' h
      | max => exact pres_lift e _ x e' h
      | gt => exact pres_lift e _ x e' h
      | lt => exact pres_lift e _ x e' h
      | ge => exact pres_lift e _ x e' h
      | le => exact pres_lift e _ x e' h
      | eq => exact pres_lift e _ x e' h
      | ne => exact pres_lift e _ x e' h
      | «if» => exact ihif e a x e' h
      | now => exact pres_now e a x e' h
      | and => exact ihand e a x e' h
      | or => exact ihor e a x e' h
      | not => exact ihnot e a x e' h
    exact ⟨heval, hcells, hcall, happ, hif, hand, handl, hor, horl, hnot⟩

lemma get_put_same (e : Env) (name : String) (v : Val) : (e.put name v).get name = .ok v := by
  simp [Env.put, Env.get]

lemma get_put_ne (e : Env) (name k : String) (v : Val) (h : k ≠ name) :
    (e.put name v).get k = e.get k := by
  simp [Env.put, Env.get, if_neg h]

lemma get_put_all_not_mem (ps : List (String × Val)) (e : Env) (name : String)
    (h : name ∉ ps.map Prod.fst) : (e.put_all ps).get name = e.get name := by
  induction ps generalizing e with
  | nil => rfl
  | cons p ps ih =>
    simp only [List.map_cons, List.mem_cons, not_or] at h
    calc (Env.put_all e (p :: ps)).get name
        = (Env.put_all (e.put p.1 p.2) ps).get name := rfl
      _ = (e.put p.1 p.2).get name := ih (e.put p.1 p.2) h.2
      _ = e.get name := get_put_ne e p.1 name p.2 h.1

lemma ne_loop_hits_float (q : Rat) (tail : List Val) :
    ∀ (xs : List Int) (seen : List Int), xs.Nodup → (∀ i ∈ xs, i ∉ seen) →
      ne_loop seen (xs.map Val.Num ++ .Float q :: tail) = some (.error .NotANumber) := by
  intro xs
  induction xs with
  | nil => intro seen _ _; rfl
  | cons x xs ih =>
    intro seen hnd hdisj
    have hx : x ∉ seen := hdisj x (List.mem_cons_self x xs)
    have hnd' := (List.nodup_cons.mp hnd).2
    have hxxs := (List.nodup_cons.mp hnd).1
    simp only [List.map_cons, List.cons_append, ne_loop, Val.as_num]
    rw [if_neg hx]
    apply ih (x :: seen) hnd'
    intro i hi
    simp only [List.mem_cons, not_or]
    exact ⟨fun he => hxxs (he ▸ hi), hdisj i (List.mem_cons_of_mem x hi)⟩

/-- C1 (amended): `builtin_if` itself does evaluate exactly one branch —
with the (pre-evaluated) condition `Bool(false)` its result is
independent of the then-argument, and with `Bool(true)` it is
independent of the else-argument.  The original claim's stronger
statement — that a whole `(if cond THEN ELSE)` evaluation succeeds when
the condition is false and `THEN` would error — fails because `eval`
evaluates all argument cells (both branches included) before invoking
the builtin; see the counterexample. -/
theorem claim_C1 (fuel : Nat) (e : Env) (t t' th el el₁ el₂ : Val) :
    builtin_if fuel e (.List [.Bool false, t, el])
      = builtin_if fuel e (.List [.Bool false, t', el]) ∧
    builtin_if fuel e (.List [.Bool true, th, el₁])
      = builtin_if fuel e (.List [.Bool true, th, el₂]) := by
  cases fuel with
  | zero => exact ⟨rfl, rfl⟩
  | succ n => exact ⟨rfl, rfl⟩

/-- C1 counterexample: `(if false undefined_name 1)` — the condition is
false and only the then-branch errors, so by the claim the evaluation
must succeed (with `Num(1)`).  Instead, `eval` evaluates every argument
cell first; the then-branch's `UnknownFunction` error arises on a
non-final cell of `eval_cells`' fold, whose next iteration hits
`unreachable!()`: the evaluation panics (`none`), returning neither a
value nor an error. -/
theorem claim_C1_cex :
    eval 20 (default_env 0)
      (.List [.Sym "if", .Sym "false", .Sym "undefined_name", .Num 1]) = none := rfl

/-- C2 (amended): a multi-element `List` whose first child evaluates to
a non-`Fun` value is *not* a `WrongType` error: `eval` falls into its
"single-expression" arm regardless of the child count, re-evaluates the
first original child and returns that value, discarding the rest.  (The
`WrongType("Function", ..)` arm of `call` is unreachable from `eval`,
which invokes `call` only on a `Fun`.) -/
theorem claim_C2 (fuel : Nat) (e e₁ : Env) (c : Val) (rest : List Val) (a : Val) (args : List Val)
    (h1 : eval_cells fuel e (c :: rest) = some (.ok args, e₁))
    (h2 : args.head? = some a)
    (h3 : ∀ name f, a ≠ .Fun name f) :
    eval (fuel + 1) e (.List (c :: rest)) = eval fuel e₁ c := by
  cases args with
  | nil => simp at h2
  | cons a0 args' =>
    have ha : a0 = a := by simpa using h2
    subst ha
    simp only [eval, h1]
    cases a0 with
    | Fun name f => exact absurd rfl (h3 name f)
    | Bool b => simp [val_peek]
    | Float q => simp [val_peek]
    | List l => simp [val_peek]
    | Num m => simp [val_peek]
    | Risp l => simp [val_peek]
    | Sym s => simp [val_peek]
    | Time t => simp [val_peek]
    | Date d => simp [val_peek]
    | DateTime d => simp [val_peek]

/-- C2 counterexample: the claim requires `eval (1 2 3)` to fail with
`WrongType`; in fact it succeeds with `Num(1)`. -/
theorem claim_C2_cex :
    eval 9 (default_env 0) (.List [.Num 1, .Num 2, .Num 3])
      = some (.ok (.Num 1), default_env 0) := rfl

/-- Witness for `claim_C2` at the concrete list `(1 2 3)`. -/
theorem claim_C2_witness :
    eval_cells 5 (default_env 0) [.Num 1, .Num 2, .Num 3]
      = some (.ok [.Num 1, .Num 2, .Num 3], default_env 0) ∧
    eval 6 (default_env 0) (.List [.Num 1, .Num 2, .Num 3])
      = eval 5 (default_env 0) (.Num 1) := by
  refine ⟨rfl, ?_⟩
  exact claim_C2 5 (default_env 0) (default_env 0) (.Num 1) [.Num 2, .Num 3] (.Num 1)
    [.Num 1, .Num 2, .Num 3] rfl rfl (fun name f h => Val.noConfusion h)

/-- C3: the claim (matching the spec and the adjacent-pair behaviour of
`gt`/`ge`/`le`/`eq`) says `(lt 0 2 1)` compares 0 with 2 and then 2 with
1, returning `Bool(false)`.  The code's `"lt"` arm keeps the *first*
element as the left operand (`x = x;` on `Ordering::Less`, where the
sibling arms do `x = y`), so it compares 0<2 and then 0<1 and returns
`Bool(true)`.  The second conjunct shows `gt` on the analogous input
does fold over adjacent pairs, exposing the asymmetry. -/
theorem claim_C3 :
    eval 9 (default_env 0) (.List [.Sym "lt", .Num 0, .Num 2, .Num 1])
      = some (.ok (.Bool true), default_env 0) ∧
    eval 9 (default_env 0) (.List [.Sym "<", .Num 0, .Num 2, .Num 1])
      = some (.ok (.Bool true), default_env 0) ∧
    eval 9 (default_env 0) (.List [.Sym ">", .Num 3, .Num 0, .Num 1, .Num 0])
      = some (.ok (.Bool false), default_env 0) := ⟨rfl, rfl, rfl⟩

/-- C4: the pairwise order does handle the four `Num`/`Float`
combinations (first four conjuncts), but same-variant `Time`, `Date`
and `DateTime` pairs are *unordered* — `PartialOrd for Val` returns
`None` for them, so comparing two `Time` values fails with
`ArgumentMismatch` instead of returning a `Bool`, contradicting the
claim and the repository's own tests (`compare_two_times`,
`compare_two_dates`, `compare_two_datetimes`). -/
theorem claim_C4 :
    (∀ a b : Int, pcmp (.Num a) (.Num b) = some (int_cmp a b)) ∧
    (∀ (a : Int) (b : Rat), pcmp (.Num a) (.Float b) = some (rat_cmp (a : Rat) b)) ∧
    (∀ (a : Rat) (b : Int), pcmp (.Float a) (.Num b) = some (rat_cmp a (b : Rat))) ∧
    (∀ a b : Rat, pcmp (.Float a) (.Float b) = some (rat_cmp a b)) ∧
    pcmp (.Time 32400) (.Time 36000) = none ∧
    pcmp (.Date 18333) (.Date 18334) = none ∧
    pcmp (.DateTime 100) (.DateTime 200) = none ∧
    eval 9 env_time_pair (.List [.Sym "<", .Sym "t1", .Sym "t2"])
      = some (.error .ArgumentMismatch, env_time_pair) :=
  ⟨fun _ _ => rfl, fun _ _ => rfl, fun _ _ => rfl, fun _ _ => rfl, rfl, rfl, rfl, rfl⟩

/-- C5: the claim (and the spec) says `(min 2 2)` retains one of the
equal elements and yields `Num(2)`.  The code's `"min"`/`"max"` arms
fall into their `_ => return Ok(val_bool(false))` catch-all on
`Ordering::Equal`, so both `(min 2 2)` and `(max 2 2)` return
`Bool(false)` — a value that is not even of the operands' type.  The
last conjunct shows the fold does work on a strictly ordered pair. -/
theorem claim_C5 :
    eval 9 (default_env 0) (.List [.Sym "min", .Num 2, .Num 2])
      = some (.ok (.Bool false), default_env 0) ∧
    eval 9 (default_env 0) (.List [.Sym "max", .Num 2, .Num 2])
      = some (.ok (.Bool false), default_env 0) ∧
    eval 9 (default_env 0) (.List [.Sym "min", .Num 5, .Num 2])
      = some (.ok (.Num 2), default_env 0) := ⟨rfl, rfl, rfl⟩

/-- C6: whenever `apply_binop` produces an outcome on two `Num`
operands it is a `Num` (first conjunct), and whenever it produces an
outcome on a pair involving a `Float` both operands are promoted and the
outcome is a `Float` (next three conjuncts) — stated over the defined
region only, since a zero divisor or an out-of-range result panics (or
is an unrepresentable IEEE value) and yields no outcome at all.
Addition of a `Num` and a `Float` is commutative in general (fifth
conjunct); concretely, with `a = Num(3)` and `b = Float(0.1415)` bound,
both `(+ a b)` and `(+ b a)` evaluate to `Float(3.1415)`. -/
theorem claim_C6 :
    (∀ (op : ArithOp) (x y : Int) (r : Except RispError Val),
      apply_binop op (.Num x) (.Num y) = some r → ∃ n : Int, r = .ok (.Num n)) ∧
    (∀ (op : ArithOp) (x : Int) (y : Rat) (r : Except RispError Val),
      apply_binop op (.Num x) (.Float y) = some r → ∃ q : Rat, r = .ok (.Float q)) ∧
    (∀ (op : ArithOp) (x : Rat) (y : Int) (r : Except RispError Val),
      apply_binop op (.Float x) (.Num y) = some r → ∃ q : Rat, r = .ok (.Float q)) ∧
    (∀ (op : ArithOp) (x y : Rat) (r : Except RispError Val),
      apply_binop op (.Float x) (.Float y) = some r → ∃ q : Rat, r = .ok (.Float q)) ∧
    (∀ (x : Int) (y : Rat),
      apply_binop .add (.Num x) (.Float y) = apply_binop .add (.Float y) (.Num x)) ∧
    eval 9 env_promote (.List [.Sym "+", .Sym "a", .Sym "b"])
      = some (.ok (.Float 3.1415), env_promote) ∧
    eval 9 env_promote (.List [.Sym "+", .Sym "b", .Sym "a"])
      = some (.ok (.Float 3.1415), env_promote) := by
  refine ⟨?_, ?_, ?_, ?_, ?_, ?_, ?_⟩
  · intro op x y r h
    simp only [apply_binop] at h
    cases hn : op.onInt x y with
    | none => rw [hn] at h; exact absurd h (by simp)
    | some n =>
      simp only [hn, Option.some.injEq] at h
      exact ⟨n, h.symm⟩
  · intro op x y r h
    simp only [apply_binop] at h
    cases hq : op.onRat (x : Rat) y with
    | none => rw [hq] at h; exact absurd h (by simp)
    | some q =>
      simp only [hq, Option.some.injEq] at h
      exact ⟨q, h.symm⟩
  · intro op x y r h
    simp only [apply_binop] at h
    cases hq : op.onRat x (y : Rat) with
    | none => rw [hq] at h; exact absurd h (by simp)
    | some q =>
      simp only [hq, Option.some.injEq] at h
      exact ⟨q, h.symm⟩
  · intro op x y r h
    simp only [apply_binop] at h
    cases hq : op.onRat x y with
    | none => rw [hq] at h; exact absurd h (by simp)
    | some q =>
      simp only [hq, Option.some.injEq] at h
      exact ⟨q, h.symm⟩
  · intro x y
    show some (Except.ok (Val.Float ((x : Rat) + y)))
        = some (Except.ok (Val.Float (y + (x : Rat))))
    rw [add_comm]
  · have h : ((3:Int):Rat) + (0.1415:Rat) = (3.1415:Rat) := by norm_num
    show some (Except.ok (Val.Float (((3:Int):Rat) + (0.1415:Rat))), env_promote)
        = some (Except.ok (Val.Float 3.1415), env_promote)
    rw [h]
  · have h : (0.1415:Rat) + ((3:Int):Rat) = (3.1415:Rat) := by norm_num
    show some (Except.ok (Val.Float ((0.1415:Rat) + ((3:Int):Rat))), env_promote)
        = some (Except.ok (Val.Float 3.1415), env_promote)
    rw [h]

/-- Witness for `claim_C6` at concrete defined inputs: `1 + 2` on two
`Num`s and `1 + 0.5` on a `Num`/`Float` pair. -/
theorem claim_C6_witness :
    apply_binop .add (.Num 1) (.Num 2) = some (.ok (.Num 3)) ∧
    (∃ n : Int, (Except.ok (Val.Num 3) : Except RispError Val) = .ok (.Num n)) ∧
    apply_binop .add (.Num 1) (.Float 0.5) = some (.ok (.Float (1.5 : Rat))) ∧
    (∃ q : Rat, (Except.ok (Val.Float (1.5 : Rat)) : Except RispError Val) = .ok (.Float q)) := by
  have h1 : apply_binop .add (.Num 1) (.Num 2) = some (.ok (.Num 3)) := rfl
  have h2 : apply_binop .add (.Num 1) (.Float 0.5) = some (.ok (.Float (1.5 : Rat))) := by
    have h : ((1:Int):Rat) + (0.5:Rat) = (1.5:Rat) := by norm_num
    show some (Except.ok (Val.Float (((1:Int):Rat) + (0.5:Rat))))
        = some (Except.ok (Val.Float (1.5 : Rat)))
    rw [h]
  exact ⟨h1, claim_C6.1 .add 1 2 (.ok (.Num 3)) h1,
    h2, claim_C6.2.1 .add 1 0.5 (.ok (.Float (1.5 : Rat))) h2⟩

/-- C7: a name neither installed by `Env::new` nor bound by any of the
subsequent `put`s fails lookup with `UnknownFunction(name)`, and
evaluating the bare symbol fails the same way; a name that was `put`
with value `v` is then `get` as `v`. -/
theorem claim_C7 (clock : Int) (ps : List (String × Val)) (name : String)
    (h1 : name ∉ installed_names) (h2 : name ∉ ps.map Prod.fst) :
    ((default_env clock).put_all ps).get name = .error (.UnknownFunction name) ∧
    (∀ fuel : Nat,
      eval (fuel + 1) ((default_env clock).put_all ps) (.Sym name)
        = some (.error (.UnknownFunction name), (default_env clock).put_all ps)) ∧
    (∀ (e : Env) (v : Val), (e.put name v).get name = .ok v) := by
  have hget : ((default_env clock).put_all ps).get name = .error (.UnknownFunction name) := by
    rw [get_put_all_not_mem ps _ name h2]
    show (Env.put_all { data := fun _ => none, clock := clock } installed_pairs).get name = _
    rw [get_put_all_not_mem installed_pairs _ name h1]
    rfl
  refine ⟨hget, ?_, fun e v => get_put_same e name v⟩
  intro fuel
  simp only [eval, hget]

/-- Witness for `claim_C7` at the spec's own example `undefined_name`. -/
theorem claim_C7_witness :
    ("undefined_name" ∉ installed_names) ∧
    (default_env 0).get "undefined_name" = .error (.UnknownFunction "undefined_name") ∧
    eval 1 (default_env 0) (.Sym "undefined_name")
      = some (.error (.UnknownFunction "undefined_name"), default_env 0) ∧
    ((default_env 0).put "undefined_name" (.Num 7)).get "undefined_name" = .ok (.Num 7) := by
  have h := claim_C7 0 [] "undefined_name" (by decide) (by simp)
  exact ⟨by decide, h.1, h.2.1 0, h.2.2 (default_env 0) (.Num 7)⟩

/-- C8: whenever evaluation completes (with a value or with an error),
the environment it hands back is exactly the one it was given, so `get`
answers identically for every name before and after — no builtin ever
calls `put`. -/
theorem claim_C8 (fuel : Nat) (e : Env) (v : Val) (r : Except RispError Val) (e' : Env)
    (h : eval fuel e v = some (r, e')) :
    e' = e ∧ ∀ name, e'.get name = e.get name := by
  have he := (env_unchanged_all fuel).1 e v r e' h
  exact ⟨he, fun name => by rw [he]⟩

/-- Witness for `claim_C8`: evaluating the atom `Num(3)` in the default
environment. -/
theorem claim_C8_witness :
    default_env 0 = default_env 0 ∧
    ∀ name, (default_env 0).get name = (default_env 0).get name :=
  claim_C8 1 (default_env 0) (.Num 3) (.ok (.Num 3)) (default_env 0) rfl

/-- C9: evaluating an empty top-level program: `eval` computes the index
of the last form as `forms_len - 1` with `forms_len = 0` and accesses
the evaluated form list out of bounds, so no value and no `RispError`
is ever produced — in this total embedding the evaluation is `none`,
for every fuel. -/
theorem claim_C9 (fuel : Nat) (e : Env) : eval (fuel + 1) e (.Risp []) = none := by
  cases fuel with
  | zero => rfl
  | succ n => rfl

/-- C10 (amended): `ne` only ever enters `i64` values into its seen-set
and fails with `NotANumber` when it *reaches* a `Float` argument; but
the arguments are consumed left to right and a duplicate `Num` returns
`Bool(false)` immediately, so a `Float` occurring after an early
duplicate is never examined.  `NotANumber` is guaranteed when the `Num`
arguments preceding the first `Float` are pairwise distinct. -/
theorem claim_C10 (xs : List Int) (q : Rat) (tail : List Val) (h : xs.Nodup) :
    builtin_ne (.List (xs.map Val.Num ++ .Float q :: tail)) = some (.error .NotANumber) := by
  cases xs with
  | nil => rfl
  | cons x xs' =>
    simp only [List.map_cons, List.cons_append, builtin_ne, Val.as_num]
    apply ne_loop_hits_float q tail xs' [x] (List.nodup_cons.mp h).2
    intro i hi
    simp only [List.mem_singleton]
    exact fun he => (List.nodup_cons.mp h).1 (he ▸ hi)

/-- C10 counterexample: `(ne 0 0 0.5)` contains a `Float`, yet the early
duplicate `0` short-circuits to `Bool(false)` before the `Float` is
reached — the claim requires `NotANumber` for *every* argument list
containing a `Float`. -/
theorem claim_C10_cex :
    builtin_ne (.List [.Num 0, .Num 0, .Float 0.5]) = some (.ok (.Bool false)) := rfl

/-- Witness for `claim_C10` at `(ne 0 1 0.5)`. -/
theorem claim_C10_witness :
    ([0, 1] : List Int).Nodup ∧
    builtin_ne (.List [.Num 0, .Num 1, .Float 0.5]) = some (.error .NotANumber) :=
  ⟨by decide, claim_C10 [0, 1] 0.5 [] (by decide)⟩
